import Mathlib

/-!
Verification of the `lite-json` value model and serializer (`src/json.rs`).

The embedding models:
- `NumberValue` / `JsonValue` as Lean structures/inductives; Rust `char`
  payloads (`Vec<char>`) become `List Nat` of Unicode scalar values, and the
  output byte buffer (`Vec<u8>`) becomes `List Nat` of byte values.
- Serialization as functions returning `Option (List Nat)`: `none` models
  fatal termination (a Rust panic), `some out` the buffer contents on normal
  return.  The arithmetic operations on `NumberValue` fields that can panic
  in a debug build are modelled explicitly: `usize` subtraction
  (`checkedSub`) and `i32::abs` (`i32Abs`).
- `indent` and `level` (`u32` in the source) as `Nat`.  This is exact for
  the `serialize()`/`format(indent)` entry points with moderate widths
  (they pass `level = 0`, and `level` grows by one per nesting level, far
  from `2^32` at any stack-viable depth), but not for arbitrary
  caller-supplied values: the source computes the space count
  `indent * level` in `u32` (src/json.rs line 256) and `level + 1` in `u32`
  at each recursive call, which overflow (debug-build panic, release
  wrap-around) once they reach `2^32`.  `push_new_line_indentU32` models
  the space-count product exactly; theorems that quantify over `indent` and
  `level` in pretty mode carry explicit `< 2^32` bounds under which every
  `u32` computation the source performs stays in range and the `Nat` model
  agrees with it (`push_new_line_indentU32` vs `push_new_line_indent`).
-/

namespace LiteJson

/-- Model of `NumberValue` (src/json.rs lines 14-20): `integer`, `fraction`
are `u128` (modelled as `Nat`), `fraction_length` is `u32` (as `Nat`),
`exponent` is `i32` (as `Int`), `negative` is `bool`. -/
structure NumberValue where
  integer : Nat
  fraction : Nat
  fraction_length : Nat
  exponent : Int
  negative : Bool
deriving DecidableEq

/-- Model of `JsonValue` (src/json.rs lines 47-54).  Keys and string
payloads are sequences of Unicode scalar values. -/
inductive JsonValue where
  | Object : List (List Nat × JsonValue) → JsonValue
  | Array : List JsonValue → JsonValue
  | String : List Nat → JsonValue
  | Number : NumberValue → JsonValue
  | Boolean : Bool → JsonValue
  | Null : JsonValue

/-- Model of `pub type JsonObject` (src/json.rs line 43). -/
def JsonObject := List (List Nat × JsonValue)

/-- Model of `JsonValue::is_object` (src/json.rs lines 58-63). -/
def JsonValue.is_object : JsonValue → Bool
  | .Object _ => true
  | _ => false

/-- Model of `JsonValue::as_object` (src/json.rs lines 66-71); the borrowed
slice and the owned vector are the same list here. -/
def JsonValue.as_object : JsonValue → Option (List (List Nat × JsonValue))
  | .Object obj => some obj
  | _ => none

/-- Model of `JsonValue::to_object` (src/json.rs lines 74-79). -/
def JsonValue.to_object : JsonValue → Option JsonObject
  | .Object obj => some obj
  | _ => none

/-- Model of `JsonValue::is_array` (src/json.rs lines 82-87). -/
def JsonValue.is_array : JsonValue → Bool
  | .Array _ => true
  | _ => false

/-- Model of `JsonValue::as_array` (src/json.rs lines 90-95). -/
def JsonValue.as_array : JsonValue → Option (List JsonValue)
  | .Array arr => some arr
  | _ => none

/-- Model of `JsonValue::to_array` (src/json.rs lines 98-103). -/
def JsonValue.to_array : JsonValue → Option (List JsonValue)
  | .Array arr => some arr
  | _ => none

/-- Model of `JsonValue::is_string` (src/json.rs lines 106-111). -/
def JsonValue.is_string : JsonValue → Bool
  | .String _ => true
  | _ => false

/-- Model of `JsonValue::as_string` (src/json.rs lines 114-119). -/
def JsonValue.as_string : JsonValue → Option (List Nat)
  | .String s => some s
  | _ => none

/-- Model of `JsonValue::to_string` (src/json.rs lines 122-127). -/
def JsonValue.to_string : JsonValue → Option (List Nat)
  | .String s => some s
  | _ => none

/-- Model of `JsonValue::is_number` (src/json.rs lines 130-135). -/
def JsonValue.is_number : JsonValue → Bool
  | .Number _ => true
  | _ => false

/-- Model of `JsonValue::as_number` (src/json.rs lines 138-143). -/
def JsonValue.as_number : JsonValue → Option NumberValue
  | .Number n => some n
  | _ => none

/-- Model of `JsonValue::to_number` (src/json.rs lines 146-151). -/
def JsonValue.to_number : JsonValue → Option NumberValue
  | .Number n => some n
  | _ => none

/-- Model of `JsonValue::is_bool` (src/json.rs lines 154-159). -/
def JsonValue.is_bool : JsonValue → Bool
  | .Boolean _ => true
  | _ => false

/-- Model of `JsonValue::as_bool` (src/json.rs lines 162-167). -/
def JsonValue.as_bool : JsonValue → Option Bool
  | .Boolean b => some b
  | _ => none

/-- Model of `JsonValue::to_bool` (src/json.rs lines 170-175). -/
def JsonValue.to_bool : JsonValue → Option Bool
  | .Boolean b => some b
  | _ => none

/-- Model of `JsonValue::is_null` (src/json.rs lines 178-183). -/
def JsonValue.is_null : JsonValue → Bool
  | .Null => true
  | _ => false

/-- A Rust `char` is a Unicode scalar value: a code point that is not a
surrogate. -/
abbrev ValidChar (c : Nat) : Prop := c < 0xD800 ∨ (0xE000 ≤ c ∧ c < 0x110000)

/-- Decimal digits (as ASCII byte values) of `n / 10^fuel-steps`, used to
build the digits of a `Nat` by structural recursion on the fuel. -/
def decimalDigitsCore (fuel n : Nat) : List Nat :=
  match fuel with
  | 0 => []
  | fuel + 1 => if n = 0 then [] else decimalDigitsCore fuel (n / 10) ++ [n % 10 + 48]

/-- Decimal ASCII digits of a natural number, no leading zeros, `"0"` for
zero: the byte sequence `u128::to_string` produces (src/json.rs lines 191,
196). -/
def decimalDigits (n : Nat) : List Nat :=
  if n = 0 then [48] else decimalDigitsCore n n

/-- Debug-build `usize` subtraction: panics (here `none`) on underflow
(src/json.rs line 198, `fraction_length - fraction_nums.len()`). -/
def checkedSub (a b : Nat) : Option Nat :=
  if b ≤ a then some (a - b) else none

/-- The smallest `i32` value. -/
def i32Min : Int := -(2 ^ 31)

/-- Debug-build `i32::abs`: panics (here `none`) on `i32::MIN`
(src/json.rs line 208, `self.exponent.abs()`). -/
def i32Abs (e : Int) : Option Nat :=
  if e = i32Min then none else some e.natAbs

/-- Model of `impl Serialize for NumberValue { fn serialize_to }`
(src/json.rs lines 186-211); the `indent`/`level` parameters are unused by
the source, so they are omitted here. -/
def NumberValue.serialize_to (self : NumberValue) (buffer : List Nat) : Option (List Nat) :=
  let b1 := if self.negative then buffer ++ [45] else buffer
  let b2 := b1 ++ decimalDigits self.integer
  let step3 : Option (List Nat) :=
    if self.fraction > 0 then
      let fraction_nums := decimalDigits self.fraction
      (checkedSub self.fraction_length fraction_nums.length).map fun pad =>
        b2 ++ [46] ++ List.replicate pad 48 ++ fraction_nums
    else some b2
  step3.bind fun b3 =>
    if self.exponent ≠ 0 then
      (i32Abs self.exponent).map fun a =>
        b3 ++ [101] ++ (if self.exponent < 0 then [45] else []) ++ decimalDigits a
    else some b3

/-- The UTF-8 encoding of a scalar value: the bytes `char::encode_utf8`
writes (src/json.rs lines 226-243). -/
def utf8Bytes (c : Nat) : List Nat :=
  if c < 0x80 then [c]
  else if c < 0x800 then [0xC0 + c / 64, 0x80 + c % 64]
  else if c < 0x10000 then [0xE0 + c / 4096, 0x80 + c / 64 % 64, 0x80 + c % 64]
  else [0xF0 + c / 262144, 0x80 + c / 4096 % 64, 0x80 + c / 64 % 64, 0x80 + c % 64]

/-- Model of `char::len_utf8` (src/json.rs line 224): its Rust definition
is this same four-way range test. -/
def lenUtf8 (c : Nat) : Nat :=
  if c < 0x80 then 1 else if c < 0x800 then 2 else if c < 0x10000 then 3 else 4

/-- The per-character body of the `push_string` loop (src/json.rs lines
216-247): the seven escape arms, then the match on `len_utf8` whose
`1`..`4` arms append the UTF-8 encoding and whose default arm panics. -/
def escapeOrRaw (c : Nat) : Option (List Nat) :=
  if c = 8 then some [92, 98]
  else if c = 12 then some [92, 102]
  else if c = 10 then some [92, 110]
  else if c = 13 then some [92, 114]
  else if c = 9 then some [92, 116]
  else if c = 34 then some [92, 34]
  else if c = 92 then some [92, 92]
  else match lenUtf8 c with
    | 1 => some (utf8Bytes c)
    | 2 => some (utf8Bytes c)
    | 3 => some (utf8Bytes c)
    | 4 => some (utf8Bytes c)
    | _ => none

/-- Model of `push_string` (src/json.rs lines 213-250). -/
def push_string (buffer : List Nat) (chars : List Nat) : Option (List Nat) :=
  (chars.foldlM (fun acc c => (escapeOrRaw c).map fun e => acc ++ e) (buffer ++ [34])).map
    fun b => b ++ [34]

/-- Model of `push_new_line_indent` (src/json.rs lines 252-261): a newline
only when `indent > 0`, then `indent * level` spaces.  The space count is a
`u32` product in the source; here it is computed in `Nat`, which is exact
only while `indent * level < 2^32` — `push_new_line_indentU32` models the
`u32` product faithfully, and pretty-mode theorems carry that bound. -/
def push_new_line_indent (buffer : List Nat) (indent level : Nat) : List Nat :=
  (if indent > 0 then buffer ++ [10] else buffer) ++ List.replicate (indent * level) 32

/-- Debug-build `u32` multiplication: panics (here `none`) on overflow. -/
def u32Mul (a b : Nat) : Option Nat :=
  if a * b < 2 ^ 32 then some (a * b) else none

/-- Model of `push_new_line_indent` (src/json.rs lines 252-261) with the
space count `indent * level` computed in `u32` exactly as the source does
(line 256): it faults on overflow in a debug build.  It refines
`push_new_line_indent`, which computes the product in unbounded `Nat`;
the two agree whenever `indent * level < 2^32`. -/
def push_new_line_indentU32 (buffer : List Nat) (indent level : Nat) : Option (List Nat) :=
  (u32Mul indent level).map fun count =>
    (if indent > 0 then buffer ++ [10] else buffer) ++ List.replicate count 32

mutual

/-- Model of `impl Serialize for JsonValue { fn serialize_to }`
(src/json.rs lines 263-315).  Note the Array arm: the source serializes
elements after the first at `level`, not `level + 1` (line 300); the model
keeps that behaviour (see `serializeArrayRest`). -/
def JsonValue.serialize_to : JsonValue → List Nat → Nat → Nat → Option (List Nat)
  | .Object [], buffer, _, _ => some (buffer ++ [123] ++ [125])
  | .Object (e0 :: rest), buffer, indent, level =>
    (push_string (push_new_line_indent (buffer ++ [123]) indent (level + 1)) e0.1).bind
      fun b2 =>
        (JsonValue.serialize_to e0.2
            (b2 ++ [58] ++ (if indent > 0 then [32] else [])) indent (level + 1)).bind
          fun b4 =>
            (serializeObjectRest rest b4 indent level).map fun b5 =>
              push_new_line_indent b5 indent level ++ [125]
  | .Array [], buffer, _, _ => some (buffer ++ [91] ++ [93])
  | .Array (v0 :: rest), buffer, indent, level =>
    (JsonValue.serialize_to v0 (push_new_line_indent (buffer ++ [91]) indent (level + 1))
        indent (level + 1)).bind
      fun b2 =>
        (serializeArrayRest rest b2 indent level).map fun b3 =>
          push_new_line_indent b3 indent level ++ [93]
  | .String s, buffer, _, _ => push_string buffer s
  | .Number num, buffer, _, _ => num.serialize_to buffer
  | .Boolean true, buffer, _, _ => some (buffer ++ [116, 114, 117, 101])
  | .Boolean false, buffer, _, _ => some (buffer ++ [102, 97, 108, 115, 101])
  | .Null, buffer, _, _ => some (buffer ++ [110, 117, 108, 108])

/-- The `for (key, val) in obj.iter().skip(1)` loop of the Object arm
(src/json.rs lines 276-285); `level` is the enclosing call's level. -/
def serializeObjectRest :
    List (List Nat × JsonValue) → List Nat → Nat → Nat → Option (List Nat)
  | [], buffer, _, _ => some buffer
  | (key, val) :: rest, buffer, indent, level =>
    (push_string (push_new_line_indent (buffer ++ [44]) indent (level + 1)) key).bind
      fun b2 =>
        (JsonValue.serialize_to val
            (b2 ++ [58] ++ (if indent > 0 then [32] else [])) indent (level + 1)).bind
          fun b4 => serializeObjectRest rest b4 indent level

/-- The `for val in arr.iter().skip(1)` loop of the Array arm (src/json.rs
lines 297-301); the source passes `level` — not `level + 1` — to the
recursive call on line 300. -/
def serializeArrayRest : List JsonValue → List Nat → Nat → Nat → Option (List Nat)
  | [], buffer, _, _ => some buffer
  | val :: rest, buffer, indent, level =>
    (JsonValue.serialize_to val (push_new_line_indent (buffer ++ [44]) indent (level + 1))
        indent level).bind
      fun b2 => serializeArrayRest rest b2 indent level

end

/-- Modelled from the spec: `serialize()` of the `Serialize` trait
(declared in src/traits.rs, which is not under src/) serializes into a
fresh buffer with `indent = 0` and `level = 0`. -/
def serialize (v : JsonValue) : Option (List Nat) :=
  JsonValue.serialize_to v [] 0 0

/-- Modelled from the spec: `format(indent)` of the `Serialize` trait
(declared in src/traits.rs, which is not under src/) serializes into a
fresh buffer at the given indent width and `level = 0`. -/
def format (v : JsonValue) (indent : Nat) : Option (List Nat) :=
  JsonValue.serialize_to v [] indent 0

/-- The bytes `push_new_line_indent` appends: a newline when `indent > 0`,
then `indent * level` spaces. -/
def nlBytes (indent level : Nat) : List Nat :=
  (if indent > 0 then [10] else []) ++ List.replicate (indent * level) 32

/-- Follows the spec's words on string escaping: the seven escaped
characters become their two-byte escapes, every other scalar value its raw
UTF-8 byte sequence. -/
def escapedChar (c : Nat) : List Nat :=
  if c = 8 then [92, 98]
  else if c = 12 then [92, 102]
  else if c = 10 then [92, 110]
  else if c = 13 then [92, 114]
  else if c = 9 then [92, 116]
  else if c = 34 then [92, 34]
  else if c = 92 then [92, 92]
  else utf8Bytes c

/-- Follows the spec's words: a quoted, escaped JSON string literal. -/
def quoteEscape (s : List Nat) : List Nat :=
  [34] ++ s.flatMap escapedChar ++ [34]

/-- Follows the spec's words: digits of the fraction left-padded with `0`
up to width `w`. -/
def leftPadZeros (w : Nat) (ds : List Nat) : List Nat :=
  List.replicate (w - ds.length) 48 ++ ds

/-- Follows the spec's words on number serialization: `-` iff negative,
decimal digits of `integer`, iff `fraction > 0` a `.` and the left-padded
fraction digits, iff `exponent ≠ 0` an `e`, a `-` for negative exponents,
and the decimal digits of `|exponent|`. -/
def specNumberBytes (n : NumberValue) : List Nat :=
  (if n.negative then [45] else []) ++ decimalDigits n.integer
    ++ (if n.fraction > 0 then
          [46] ++ leftPadZeros n.fraction_length (decimalDigits n.fraction)
        else [])
    ++ (if n.exponent ≠ 0 then
          [101] ++ (if n.exponent < 0 then [45] else []) ++ decimalDigits n.exponent.natAbs
        else [])

/-- Closed form of `NumberValue.serialize_to`: the bytes it appends, or
`none` when it terminates fatally. -/
def numberBytes (n : NumberValue) : Option (List Nat) :=
  (if n.fraction > 0 then
      (checkedSub n.fraction_length (decimalDigits n.fraction).length).map fun pad =>
        [46] ++ List.replicate pad 48 ++ decimalDigits n.fraction
    else some []).bind fun fracB =>
    (if n.exponent ≠ 0 then
        (i32Abs n.exponent).map fun a =>
          [101] ++ (if n.exponent < 0 then [45] else []) ++ decimalDigits a
      else some []).map fun expB =>
      (if n.negative then [45] else []) ++ decimalDigits n.integer ++ fracB ++ expB

mutual

/-- Closed form of `JsonValue.serialize_to`: the bytes it appends to the
buffer, or `none` when it terminates fatally. -/
def emit : JsonValue → Nat → Nat → Option (List Nat)
  | .Object [], _, _ => some [123, 125]
  | .Object (e0 :: rest), indent, level =>
    (emit e0.2 indent (level + 1)).bind fun vb =>
      (emitObjRest rest indent level).map fun rb =>
        [123] ++ nlBytes indent (level + 1) ++ quoteEscape e0.1 ++ [58]
          ++ (if indent > 0 then [32] else []) ++ vb ++ rb ++ nlBytes indent level ++ [125]
  | .Array [], _, _ => some [91, 93]
  | .Array (v0 :: rest), indent, level =>
    (emit v0 indent (level + 1)).bind fun vb =>
      (emitArrRest rest indent level).map fun rb =>
        [91] ++ nlBytes indent (level + 1) ++ vb ++ rb ++ nlBytes indent level ++ [93]
  | .String s, _, _ => some (quoteEscape s)
  | .Number n, _, _ => numberBytes n
  | .Boolean true, _, _ => some [116, 114, 117, 101]
  | .Boolean false, _, _ => some [102, 97, 108, 115, 101]
  | .Null, _, _ => some [110, 117, 108, 108]

/-- Closed form of `serializeObjectRest`. -/
def emitObjRest : List (List Nat × JsonValue) → Nat → Nat → Option (List Nat)
  | [], _, _ => some []
  | (key, val) :: rest, indent, level =>
    (emit val indent (level + 1)).bind fun vb =>
      (emitObjRest rest indent level).map fun rb =>
        [44] ++ nlBytes indent (level + 1) ++ quoteEscape key ++ [58]
          ++ (if indent > 0 then [32] else []) ++ vb ++ rb

/-- Closed form of `serializeArrayRest`; the value is emitted at `level`,
mirroring src/json.rs line 300. -/
def emitArrRest : List JsonValue → Nat → Nat → Option (List Nat)
  | [], _, _ => some []
  | val :: rest, indent, level =>
    (emit val indent level).bind fun vb =>
      (emitArrRest rest indent level).map fun rb =>
        [44] ++ nlBytes indent (level + 1) ++ vb ++ rb

end

/-- The documented `NumberValue` invariant (`fraction < 10^fraction_length`)
together with `exponent ≠ i32::MIN`: exactly the conditions under which
`NumberValue::serialize_to` cannot panic. -/
def numberOk (n : NumberValue) : Bool :=
  decide (n.fraction < 10 ^ n.fraction_length) && decide (n.exponent ≠ i32Min)

mutual

/-- Every `NumberValue` in the tree satisfies `numberOk`. -/
def numbersOk : JsonValue → Bool
  | .Object obj => numbersOkEntries obj
  | .Array arr => numbersOkElems arr
  | .Number n => numberOk n
  | _ => true

/-- `numbersOk` over array elements. -/
def numbersOkElems : List JsonValue → Bool
  | [] => true
  | v :: rest => numbersOk v && numbersOkElems rest

/-- `numbersOk` over object entries. -/
def numbersOkEntries : List (List Nat × JsonValue) → Bool
  | [] => true
  | e :: rest => numbersOk e.2 && numbersOkEntries rest

end

mutual

/-- No string payload and no object key in the tree contains the space
character (the only scalar value whose serialized form contains a
whitespace byte). -/
def noSpaceStrings : JsonValue → Bool
  | .Object obj => noSpaceEntries obj
  | .Array arr => noSpaceElems arr
  | .String s => s.all fun c => c != 32
  | _ => true

/-- `noSpaceStrings` over array elements. -/
def noSpaceElems : List JsonValue → Bool
  | [] => true
  | v :: rest => noSpaceStrings v && noSpaceElems rest

/-- `noSpaceStrings` over object entries, keys included. -/
def noSpaceEntries : List (List Nat × JsonValue) → Bool
  | [] => true
  | e :: rest => (e.1.all fun c => c != 32) && noSpaceStrings e.2 && noSpaceEntries rest

end

/-- A whitespace byte: tab, newline, carriage return or space. -/
def whitespaceByte (b : Nat) : Prop :=
  b = 9 ∨ b = 10 ∨ b = 13 ∨ b = 32

mutual

/-- Nesting depth of a value: the number of container levels below it.
`level + depth v` bounds every `level` argument the traversal of `v`
starting at `level` ever passes to `push_new_line_indent`. -/
def depth : JsonValue → Nat
  | .Object obj => 1 + depthEntries obj
  | .Array arr => 1 + depthElems arr
  | _ => 0

/-- Maximum `depth` over array elements. -/
def depthElems : List JsonValue → Nat
  | [] => 0
  | v :: rest => max (depth v) (depthElems rest)

/-- Maximum `depth` over object entry values. -/
def depthEntries : List (List Nat × JsonValue) → Nat
  | [] => 0
  | e :: rest => max (depth e.2) (depthEntries rest)

end

theorem push_new_line_indent_eq (buffer : List Nat) (indent level : Nat) :
    push_new_line_indent buffer indent level = buffer ++ nlBytes indent level := by
  unfold push_new_line_indent nlBytes
  split <;> simp

theorem push_new_line_indentU32_agree (buffer : List Nat) (indent level : Nat)
    (h : indent * level < 2 ^ 32) :
    push_new_line_indentU32 buffer indent level
      = some (push_new_line_indent buffer indent level) := by
  unfold push_new_line_indentU32 u32Mul push_new_line_indent
  rw [if_pos h]
  rfl

theorem escapeOrRaw_eq (c : Nat) : escapeOrRaw c = some (escapedChar c) := by
  unfold escapeOrRaw escapedChar lenUtf8
  split_ifs <;> rfl

theorem push_string_foldl (chars : List Nat) :
    ∀ acc : List Nat,
      chars.foldlM (fun acc c => (escapeOrRaw c).map fun e => acc ++ e) acc
        = some (acc ++ chars.flatMap escapedChar) := by
  induction chars with
  | nil => intro acc; simp
  | cons c cs ih =>
    intro acc
    rw [List.foldlM_cons]
    have hstep : (escapeOrRaw c).map (fun e => acc ++ e) = some (acc ++ escapedChar c) := by
      rw [escapeOrRaw_eq]; rfl
    rw [hstep]
    show cs.foldlM (fun acc c => (escapeOrRaw c).map fun e => acc ++ e) (acc ++ escapedChar c)
        = some (acc ++ (c :: cs).flatMap escapedChar)
    rw [ih, List.flatMap_cons]
    simp [List.append_assoc]

theorem push_string_eq (buffer chars : List Nat) :
    push_string buffer chars = some (buffer ++ quoteEscape chars) := by
  unfold push_string quoteEscape
  rw [push_string_foldl]
  simp [List.append_assoc]

theorem number_serialize_eq (n : NumberValue) (buffer : List Nat) :
    n.serialize_to buffer = (numberBytes n).map fun out => buffer ++ out := by
  unfold NumberValue.serialize_to numberBytes
  rcases n with ⟨i, f, fl, e, neg⟩
  dsimp
  split_ifs with h1 h2 h3 <;>
    cases hs : checkedSub fl (decimalDigits f).length <;>
    cases ha : i32Abs e <;>
    simp_all [Option.bind, List.append_assoc]

theorem serialize_to_eq_emit (v : JsonValue) (buffer : List Nat) (indent level : Nat) :
    JsonValue.serialize_to v buffer indent level
      = (emit v indent level).map fun out => buffer ++ out := by
  refine
    JsonValue.serialize_to.induct
      (fun v _ i l => ∀ b, JsonValue.serialize_to v b i l
        = (emit v i l).map fun out => b ++ out)
      (fun els _ i l => ∀ b, serializeArrayRest els b i l
        = (emitArrRest els i l).map fun out => b ++ out)
      (fun ents _ i l => ∀ b, serializeObjectRest ents b i l
        = (emitObjRest ents i l).map fun out => b ++ out)
      ?_ ?_ ?_ ?_ ?_ ?_ ?_ ?_ ?_ ?_ ?_ ?_ ?_ v buffer indent level buffer
  · intro buf x1 x2 b
    simp [JsonValue.serialize_to, emit]
  · intro e0 rest buf i l ih1 ih2 b
    simp only [JsonValue.serialize_to, emit, push_new_line_indent_eq, push_string_eq,
      Option.some_bind]
    rw [ih1 []]
    cases he : emit e0.2 i (l + 1) with
    | none => simp
    | some vb =>
      simp only [Option.map_some', Option.some_bind]
      rw [ih2 []]
      cases hr : emitObjRest rest i l with
      | none => simp
      | some rb => simp [push_new_line_indent_eq, List.append_assoc]
  · intro buf x1 x2 b
    simp [JsonValue.serialize_to, emit]
  · intro v0 rest buf i l ih1 ih2 b
    simp only [JsonValue.serialize_to, emit, push_new_line_indent_eq]
    rw [ih1]
    cases he : emit v0 i (l + 1) with
    | none => simp
    | some vb =>
      simp only [Option.map_some', Option.some_bind]
      rw [ih2 []]
      cases hr : emitArrRest rest i l with
      | none => simp
      | some rb => simp [push_new_line_indent_eq, List.append_assoc]
  · intro s buf x1 x2 b
    simp [JsonValue.serialize_to, emit, push_string_eq]
  · intro num buf x1 x2 b
    simp [JsonValue.serialize_to, emit, number_serialize_eq]
  · intro buf x1 x2 b
    simp [JsonValue.serialize_to, emit]
  · intro buf x1 x2 b
    simp [JsonValue.serialize_to, emit]
  · intro buf x1 x2 b
    simp [JsonValue.serialize_to, emit]
  · intro buf x1 x2 b
    simp [serializeObjectRest, emitObjRest]
  · intro key val rest buf i l ih1 ih2 b
    simp only [serializeObjectRest, emitObjRest, push_new_line_indent_eq, push_string_eq,
      Option.some_bind]
    rw [ih1 []]
    cases he : emit val i (l + 1) with
    | none => simp
    | some vb =>
      simp only [Option.map_some', Option.some_bind]
      rw [ih2 []]
      cases hr : emitObjRest rest i l with
      | none => simp
      | some rb => simp [List.append_assoc]
  · intro buf x1 x2 b
    simp [serializeArrayRest, emitArrRest]
  · intro val rest buf i l ih1 ih2 b
    simp only [serializeArrayRest, emitArrRest, push_new_line_indent_eq]
    rw [ih1]
    cases he : emit val i l with
    | none => simp
    | some vb =>
      simp only [Option.map_some', Option.some_bind]
      rw [ih2 []]
      cases hr : emitArrRest rest i l with
      | none => simp
      | some rb => simp [List.append_assoc]

theorem decimalDigitsCore_length (fuel : Nat) :
    ∀ n k, n ≤ fuel → n < 10 ^ k → (decimalDigitsCore fuel n).length ≤ k := by
  induction fuel with
  | zero => intro n k h1 h2; simp [decimalDigitsCore]
  | succ fuel ih =>
    intro n k h1 h2
    unfold decimalDigitsCore
    split
    · simp
    · next hn =>
      cases k with
      | zero => simp at h2; omega
      | succ k =>
        have hd : n / 10 < 10 ^ k := by
          have hp : (10 : Nat) ^ (k + 1) = 10 ^ k * 10 := by ring
          rw [Nat.div_lt_iff_lt_mul (by omega)]
          omega
        have hself : n / 10 < n := Nat.div_lt_self (by omega) (by omega)
        have := ih (n / 10) k (by omega) hd
        simp only [List.length_append, List.length_cons, List.length_nil]
        omega

theorem decimalDigits_length_le (n k : Nat) (hn : n ≠ 0) (h : n < 10 ^ k) :
    (decimalDigits n).length ≤ k := by
  unfold decimalDigits
  rw [if_neg hn]
  exact decimalDigitsCore_length n n k le_rfl h

theorem decimalDigitsCore_mem (fuel : Nat) :
    ∀ n b, b ∈ decimalDigitsCore fuel n → 48 ≤ b ∧ b ≤ 57 := by
  induction fuel with
  | zero => intro n b hb; simp [decimalDigitsCore] at hb
  | succ fuel ih =>
    intro n b hb
    unfold decimalDigitsCore at hb
    split at hb
    · simp at hb
    · rw [List.mem_append] at hb
      rcases hb with hb | hb
      · exact ih _ _ hb
      · have h10 : n % 10 < 10 := Nat.mod_lt n (by omega)
        simp at hb
        omega

theorem decimalDigits_mem (n b : Nat) (hb : b ∈ decimalDigits n) : 48 ≤ b ∧ b ≤ 57 := by
  unfold decimalDigits at hb
  split at hb
  · simp at hb; omega
  · exact decimalDigitsCore_mem n n b hb

theorem numberBytes_eq_spec (n : NumberValue) (h1 : n.fraction < 10 ^ n.fraction_length)
    (h2 : n.exponent ≠ i32Min) : numberBytes n = some (specNumberBytes n) := by
  have hsub : n.fraction > 0 →
      checkedSub n.fraction_length (decimalDigits n.fraction).length
        = some (n.fraction_length - (decimalDigits n.fraction).length) := by
    intro hf
    have := decimalDigits_length_le n.fraction n.fraction_length (by omega) h1
    unfold checkedSub
    rw [if_pos this]
  unfold numberBytes specNumberBytes leftPadZeros i32Abs
  by_cases hf : n.fraction > 0 <;> by_cases he : n.exponent ≠ 0 <;>
    simp [hf, he, hsub, h2, List.append_assoc]

theorem nlBytes_zero (l : Nat) : nlBytes 0 l = [] := by
  simp [nlBytes]

theorem emit_indent_zero_level (v : JsonValue) (l1 l2 : Nat) :
    emit v 0 l1 = emit v 0 l2 := by
  refine
    emit.induct
      (fun v _ _ => forall l1 l2, emit v 0 l1 = emit v 0 l2)
      (fun els _ _ => forall l1 l2, emitArrRest els 0 l1 = emitArrRest els 0 l2)
      (fun ents _ _ => forall l1 l2, emitObjRest ents 0 l1 = emitObjRest ents 0 l2)
      ?_ ?_ ?_ ?_ ?_ ?_ ?_ ?_ ?_ ?_ ?_ ?_ ?_ v 0 l1 l1 l2
  · intro x1 x2 l1 l2; rfl
  · intro e0 rest i l ih1 ih2 l1 l2
    simp only [emit, nlBytes_zero]
    rw [ih1 (l1 + 1) (l2 + 1), ih2 l1 l2]
  · intro x1 x2 l1 l2; rfl
  · intro v0 rest i l ih1 ih2 l1 l2
    simp only [emit, nlBytes_zero]
    rw [ih1 (l1 + 1) (l2 + 1), ih2 l1 l2]
  · intro s x1 x2 l1 l2; rfl
  · intro n x1 x2 l1 l2; rfl
  · intro x1 x2 l1 l2; rfl
  · intro x1 x2 l1 l2; rfl
  · intro x1 x2 l1 l2; rfl
  · intro x1 x2 l1 l2; rfl
  · intro key val rest i l ih1 ih2 l1 l2
    simp only [emitObjRest, nlBytes_zero]
    rw [ih1 (l1 + 1) (l2 + 1), ih2 l1 l2]
  · intro x1 x2 l1 l2; rfl
  · intro val rest i l ih1 ih2 l1 l2
    simp only [emitArrRest, nlBytes_zero]
    rw [ih1 l1 l2, ih2 l1 l2]

theorem numberBytes_isSome (n : NumberValue) (h : numberOk n = true) :
    (numberBytes n).isSome = true := by
  unfold numberOk at h
  simp only [Bool.and_eq_true, decide_eq_true_eq] at h
  rw [numberBytes_eq_spec n h.1 h.2]
  rfl

theorem emit_isSome_of_numbersOk (v : JsonValue) (indent level : Nat)
    (h : numbersOk v = true) : (emit v indent level).isSome = true := by
  refine
    emit.induct
      (fun v i l => numbersOk v = true → (emit v i l).isSome = true)
      (fun els i l => numbersOkElems els = true → (emitArrRest els i l).isSome = true)
      (fun ents i l => numbersOkEntries ents = true → (emitObjRest ents i l).isSome = true)
      ?_ ?_ ?_ ?_ ?_ ?_ ?_ ?_ ?_ ?_ ?_ ?_ ?_ v indent level h
  · intro x1 x2 h; rfl
  · intro e0 rest i l ih1 ih2 h
    simp only [numbersOk, numbersOkEntries, Bool.and_eq_true] at h
    have h1 := ih1 h.1
    have h2 := ih2 h.2
    simp only [emit]
    cases he : emit e0.2 i (l + 1) <;> cases hr : emitObjRest rest i l <;>
      simp_all
  · intro x1 x2 h; rfl
  · intro v0 rest i l ih1 ih2 h
    simp only [numbersOk, numbersOkElems, Bool.and_eq_true] at h
    have h1 := ih1 h.1
    have h2 := ih2 h.2
    simp only [emit]
    cases he : emit v0 i (l + 1) <;> cases hr : emitArrRest rest i l <;>
      simp_all
  · intro s x1 x2 h; rfl
  · intro n x1 x2 h
    simp only [numbersOk] at h
    simpa [emit] using numberBytes_isSome n h
  · intro x1 x2 h; rfl
  · intro x1 x2 h; rfl
  · intro x1 x2 h; rfl
  · intro x1 x2 h; rfl
  · intro key val rest i l ih1 ih2 h
    simp only [numbersOkEntries, Bool.and_eq_true] at h
    have h1 := ih1 h.1
    have h2 := ih2 h.2
    simp only [emitObjRest]
    cases he : emit val i (l + 1) <;> cases hr : emitObjRest rest i l <;>
      simp_all
  · intro x1 x2 h; rfl
  · intro val rest i l ih1 ih2 h
    simp only [numbersOkElems, Bool.and_eq_true] at h
    have h1 := ih1 h.1
    have h2 := ih2 h.2
    simp only [emitArrRest]
    cases he : emit val i l <;> cases hr : emitArrRest rest i l <;>
      simp_all

theorem utf8Bytes_no_ws (c : Nat) (h9 : c ≠ 9) (h10 : c ≠ 10) (h13 : c ≠ 13) (h32 : c ≠ 32) :
    ∀ b ∈ utf8Bytes c, ¬ whitespaceByte b := by
  intro b hb
  unfold utf8Bytes at hb
  unfold whitespaceByte
  split_ifs at hb with hA hB hC <;> simp at hb <;> omega

theorem escapedChar_no_ws (c : Nat) (hc : c ≠ 32) :
    ∀ b ∈ escapedChar c, ¬ whitespaceByte b := by
  intro b hb
  unfold escapedChar at hb
  split_ifs at hb with h1 h2 h3 h4 h5 h6 h7
  · simp at hb; unfold whitespaceByte; omega
  · simp at hb; unfold whitespaceByte; omega
  · simp at hb; unfold whitespaceByte; omega
  · simp at hb; unfold whitespaceByte; omega
  · simp at hb; unfold whitespaceByte; omega
  · simp at hb; unfold whitespaceByte; omega
  · simp at hb; unfold whitespaceByte; omega
  · exact utf8Bytes_no_ws c h5 h3 h4 hc b hb

theorem quoteEscape_no_ws (s : List Nat) (hs : ∀ c ∈ s, c ≠ 32) :
    ∀ b ∈ quoteEscape s, ¬ whitespaceByte b := by
  intro b hb
  unfold quoteEscape at hb
  simp only [List.mem_append, List.mem_singleton, List.mem_flatMap] at hb
  rcases hb with (hb | ⟨c, hc, hb⟩) | hb
  · subst hb; unfold whitespaceByte; omega
  · exact escapedChar_no_ws c (hs c hc) b hb
  · subst hb; unfold whitespaceByte; omega

theorem numberBytes_mem (n : NumberValue) (out : List Nat) (h : numberBytes n = some out) :
    ∀ b ∈ out, b = 45 ∨ b = 46 ∨ b = 101 ∨ (48 ≤ b ∧ b ≤ 57) := by
  unfold numberBytes at h
  rw [Option.bind_eq_some] at h
  obtain ⟨fracB, hfrac, h⟩ := h
  rw [Option.map_eq_some'] at h
  obtain ⟨expB, hexp, rfl⟩ := h
  simp only [List.forall_mem_append]
  refine ⟨⟨⟨?_, ?_⟩, ?_⟩, ?_⟩
  · intro b hb
    split at hb <;> simp at hb
    omega
  · intro b hb
    have := decimalDigits_mem n.integer b hb
    omega
  · split at hfrac
    · rw [Option.map_eq_some'] at hfrac
      obtain ⟨pad, hpad, rfl⟩ := hfrac
      simp only [List.forall_mem_append]
      refine ⟨⟨?_, ?_⟩, ?_⟩
      · intro b hb; simp at hb; omega
      · intro b hb; rw [List.mem_replicate] at hb; omega
      · intro b hb
        have := decimalDigits_mem n.fraction b hb
        omega
    · cases hfrac
      intro b hb
      simp at hb
  · split at hexp
    · rw [Option.map_eq_some'] at hexp
      obtain ⟨a, ha, rfl⟩ := hexp
      simp only [List.forall_mem_append]
      refine ⟨⟨?_, ?_⟩, ?_⟩
      · intro b hb; simp at hb; omega
      · intro b hb
        split at hb <;> simp at hb
        omega
      · intro b hb
        have := decimalDigits_mem a b hb
        omega
    · cases hexp
      intro b hb
      simp at hb

theorem numberBytes_no_ws (n : NumberValue) (out : List Nat) (h : numberBytes n = some out) :
    ∀ b ∈ out, ¬ whitespaceByte b := by
  intro b hb
  have := numberBytes_mem n out h b hb
  unfold whitespaceByte
  omega

theorem all_ne_32 (s : List Nat) (h : (s.all fun c => c != 32) = true) : ∀ c ∈ s, c ≠ 32 := by
  intro c hc
  have := List.all_eq_true.mp h c hc
  simpa using this

theorem emit_no_ws (v : JsonValue) (level : Nat) (out : List Nat)
    (hns : noSpaceStrings v = true) (h : emit v 0 level = some out) :
    ∀ b ∈ out, ¬ whitespaceByte b := by
  refine
    emit.induct
      (fun v _ _ => ∀ l out, noSpaceStrings v = true → emit v 0 l = some out →
        ∀ b ∈ out, ¬ whitespaceByte b)
      (fun els _ _ => ∀ l out, noSpaceElems els = true → emitArrRest els 0 l = some out →
        ∀ b ∈ out, ¬ whitespaceByte b)
      (fun ents _ _ => ∀ l out, noSpaceEntries ents = true → emitObjRest ents 0 l = some out →
        ∀ b ∈ out, ¬ whitespaceByte b)
      ?_ ?_ ?_ ?_ ?_ ?_ ?_ ?_ ?_ ?_ ?_ ?_ ?_ v 0 level level out hns h
  · intro x1 x2 l out hns h
    cases h
    intro b hb
    simp at hb
    unfold whitespaceByte
    omega
  · intro e0 rest i lvl ih1 ih2 l out hns h
    simp only [noSpaceStrings, noSpaceEntries, Bool.and_eq_true] at hns
    simp only [emit] at h
    rw [Option.bind_eq_some] at h
    obtain ⟨vb, hvb, h⟩ := h
    rw [Option.map_eq_some'] at h
    obtain ⟨rb, hrb, rfl⟩ := h
    simp only [nlBytes_zero, List.forall_mem_append, List.nil_append, List.append_nil,
      gt_iff_lt, lt_irrefl, if_false]
    refine ⟨⟨⟨⟨⟨?_, ?_⟩, ?_⟩, ?_⟩, ?_⟩, ?_⟩
    · intro b hb; simp at hb; unfold whitespaceByte; omega
    · exact quoteEscape_no_ws e0.1 (all_ne_32 e0.1 hns.1.1)
    · intro b hb; simp at hb; unfold whitespaceByte; omega
    · exact ih1 (l + 1) vb hns.1.2 hvb
    · exact ih2 l rb hns.2 hrb
    · intro b hb; simp at hb; unfold whitespaceByte; omega
  · intro x1 x2 l out hns h
    cases h
    intro b hb
    simp at hb
    unfold whitespaceByte
    omega
  · intro v0 rest i lvl ih1 ih2 l out hns h
    simp only [noSpaceStrings, noSpaceElems, Bool.and_eq_true] at hns
    simp only [emit] at h
    rw [Option.bind_eq_some] at h
    obtain ⟨vb, hvb, h⟩ := h
    rw [Option.map_eq_some'] at h
    obtain ⟨rb, hrb, rfl⟩ := h
    simp only [nlBytes_zero, List.forall_mem_append, List.nil_append, List.append_nil]
    refine ⟨⟨⟨?_, ?_⟩, ?_⟩, ?_⟩
    · intro b hb; simp at hb; unfold whitespaceByte; omega
    · exact ih1 (l + 1) vb hns.1 hvb
    · exact ih2 l rb hns.2 hrb
    · intro b hb; simp at hb; unfold whitespaceByte; omega
  · intro s x1 x2 l out hns h
    simp only [noSpaceStrings] at hns
    cases h
    exact quoteEscape_no_ws s (all_ne_32 s hns)
  · intro n x1 x2 l out hns h
    simp only [emit] at h
    exact numberBytes_no_ws n out h
  · intro x1 x2 l out hns h
    cases h
    intro b hb
    simp at hb
    unfold whitespaceByte
    omega
  · intro x1 x2 l out hns h
    cases h
    intro b hb
    simp at hb
    unfold whitespaceByte
    omega
  · intro x1 x2 l out hns h
    cases h
    intro b hb
    simp at hb
    unfold whitespaceByte
    omega
  · intro x1 x2 l out hns h
    cases h
    intro b hb
    simp at hb
  · intro key val rest i lvl ih1 ih2 l out hns h
    simp only [noSpaceEntries, Bool.and_eq_true] at hns
    simp only [emitObjRest] at h
    rw [Option.bind_eq_some] at h
    obtain ⟨vb, hvb, h⟩ := h
    rw [Option.map_eq_some'] at h
    obtain ⟨rb, hrb, rfl⟩ := h
    simp only [nlBytes_zero, List.forall_mem_append, List.nil_append, List.append_nil,
      gt_iff_lt, lt_irrefl, if_false]
    refine ⟨⟨⟨⟨?_, ?_⟩, ?_⟩, ?_⟩, ?_⟩
    · intro b hb; simp at hb; unfold whitespaceByte; omega
    · exact quoteEscape_no_ws key (all_ne_32 key hns.1.1)
    · intro b hb; simp at hb; unfold whitespaceByte; omega
    · exact ih1 (l + 1) vb hns.1.2 hvb
    · exact ih2 l rb hns.2 hrb
  · intro x1 x2 l out hns h
    cases h
    intro b hb
    simp at hb
  · intro val rest i lvl ih1 ih2 l out hns h
    simp only [noSpaceElems, Bool.and_eq_true] at hns
    simp only [emitArrRest] at h
    rw [Option.bind_eq_some] at h
    obtain ⟨vb, hvb, h⟩ := h
    rw [Option.map_eq_some'] at h
    obtain ⟨rb, hrb, rfl⟩ := h
    simp only [nlBytes_zero, List.forall_mem_append, List.nil_append, List.append_nil]
    refine ⟨⟨?_, ?_⟩, ?_⟩
    · intro b hb; simp at hb; unfold whitespaceByte; omega
    · exact ih1 l vb hns.1 hvb
    · exact ih2 l rb hns.2 hrb

/-- C1: the claim says every array element is recursively serialized at
nesting depth `level + 1`, like object entries.  The source instead passes
`level` for elements after the first (src/json.rs line 300): on
`[[null],[null]]` with `indent = 1`, `level = 0` the code under-indents the
second inner array, differing from the claimed uniform pattern. -/
theorem C1_array_level_divergence :
    JsonValue.serialize_to (.Array [.Array [.Null], .Array [.Null]]) [] 1 0 =
        some [91, 10, 32, 91, 10, 32, 32, 110, 117, 108, 108, 10, 32, 93, 44,
              10, 32, 91, 10, 32, 110, 117, 108, 108, 10, 93, 10, 93]
    ∧ JsonValue.serialize_to (.Array [.Array [.Null], .Array [.Null]]) [] 1 0 ≠
        some [91, 10, 32, 91, 10, 32, 32, 110, 117, 108, 108, 10, 32, 93, 44,
              10, 32, 91, 10, 32, 32, 110, 117, 108, 108, 10, 32, 93, 10, 93] := by
  constructor
  · decide
  · decide

/-- C2 (counterexample): serializing the Number with `fraction = 10`,
`fraction_length = 1` terminates fatally (underflow of
`fraction_length - fraction_nums.len()`), refuting the claim that Number
serialization never terminates fatally for any field combination. -/
theorem C2_counterexample :
    JsonValue.serialize_to (.Number ⟨1, 10, 1, 0, false⟩) [] 0 0 = none := by
  decide

/-- C2 (amended): serialization never terminates fatally provided every
`NumberValue` in the tree satisfies `fraction < 10 ^ fraction_length` and
`exponent ≠ i32::MIN`, and the `u32` arithmetic on `indent`/`level` stays
in range: `level + depth v < 2^32` (every `level + 1` the recursion
computes) and `indent * (level + depth v) < 2^32` (every space-count
product `push_new_line_indent` computes — the second conjunct shows the
exact-`u32` helper agrees with the model on all of them); string escaping
never terminates fatally. -/
theorem C2_no_fatal_of_numbersOk (v : JsonValue) (buffer : List Nat) (indent level : Nat)
    (h : numbersOk v = true) (hadd : level + depth v < 2 ^ 32)
    (hmul : indent * (level + depth v) < 2 ^ 32) :
    (∀ b2 l2, l2 ≤ level + depth v →
      push_new_line_indentU32 b2 indent l2 = some (push_new_line_indent b2 indent l2))
    ∧ (JsonValue.serialize_to v buffer indent level).isSome = true := by
  constructor
  · intro b2 l2 hl2
    refine push_new_line_indentU32_agree b2 indent l2 ?_
    have := Nat.mul_le_mul_left indent hl2
    omega
  · rw [serialize_to_eq_emit]
    have hs := emit_isSome_of_numbersOk v indent level h
    cases he : emit v indent level
    · rw [he] at hs; simp at hs
    · simp

/-- Witness for C2: a concrete well-formed tree serializes without fatal
termination within the `u32` bounds. -/
theorem C2_witness :
    (JsonValue.serialize_to (.Object [([97], .Number ⟨1, 5, 1, 2, true⟩)]) [] 4 0).isSome
      = true :=
  (C2_no_fatal_of_numbersOk (.Object [([97], .Number ⟨1, 5, 1, 2, true⟩)]) [] 4 0
    (by decide) (by decide) (by decide)).2

/-- C3 (counterexample): the NumberValue `{integer: 1234, fraction: 56,
fraction_length: 4, exponent: i32::MIN, negative: false}` satisfies the
claim's hypothesis `fraction < 10 ^ fraction_length`, yet instead of
emitting `e`, `-` and the digits of `|exponent|`, serialization terminates
fatally (`i32::abs` overflows on `i32::MIN` in a debug build). -/
theorem C3_counterexample :
    (⟨1234, 56, 4, i32Min, false⟩ : NumberValue).fraction
        < 10 ^ (⟨1234, 56, 4, i32Min, false⟩ : NumberValue).fraction_length
    ∧ NumberValue.serialize_to ⟨1234, 56, 4, i32Min, false⟩ [] = none := by
  constructor
  · decide
  · decide

/-- C3 (amended): for every NumberValue with `fraction < 10^fraction_length`
and `exponent ≠ i32::MIN`, `serialize_to` appends exactly `-` iff negative,
the decimal digits of `integer`, iff `fraction > 0` a `.` and the digits of
`fraction` left-padded with `0` to exactly `fraction_length` digits, and iff
`exponent ≠ 0` an `e`, a `-` iff the exponent is negative, and the decimal
digits of `|exponent|`. -/
theorem C3_number_format (n : NumberValue) (h1 : n.fraction < 10 ^ n.fraction_length)
    (h2 : n.exponent ≠ i32Min) :
    (∀ buffer, n.serialize_to buffer = some (buffer ++ specNumberBytes n))
    ∧ (0 < n.fraction →
        (leftPadZeros n.fraction_length (decimalDigits n.fraction)).length
          = n.fraction_length) := by
  constructor
  · intro buffer
    rw [number_serialize_eq, numberBytes_eq_spec n h1 h2]
    rfl
  · intro hf
    have := decimalDigits_length_le n.fraction n.fraction_length (by omega) h1
    unfold leftPadZeros
    rw [List.length_append, List.length_replicate]
    omega

/-- Witness for C3: the spec's example `{integer: 1234, fraction: 56,
fraction_length: 4, exponent: -5, negative: false}` serializes to
`\x221234.0056e-5\x22`. -/
theorem C3_witness :
    NumberValue.serialize_to ⟨1234, 56, 4, -5, false⟩ []
      = some [49, 50, 51, 52, 46, 48, 48, 53, 54, 101, 45, 53] := by
  have h := (C3_number_format ⟨1234, 56, 4, -5, false⟩ (by decide) (by decide)).1 []
  rw [h]
  decide

/-- C4: on an empty Object `serialize_to` appends exactly the bytes of
`\x7b\x7d`, and on an empty Array exactly those of `[]`, for every buffer,
indent and level, with no inserted whitespace. -/
theorem C4_empty_containers (buffer : List Nat) (indent level : Nat) :
    JsonValue.serialize_to (.Object []) buffer indent level = some (buffer ++ [123, 125])
    ∧ JsonValue.serialize_to (.Array []) buffer indent level = some (buffer ++ [91, 93]) := by
  constructor <;> simp [JsonValue.serialize_to]

/-- C5: for every value of variant V, `is_V` is true and every other
`is_*` is false; `as_V` and `to_V` return the payload and every other
`as_*`/`to_*` returns `none`; all accessors are total functions. -/
theorem C5_accessors :
    (∀ obj : List (List Nat × JsonValue),
      (JsonValue.Object obj).is_object = true
      ∧ (JsonValue.Object obj).is_array = false
      ∧ (JsonValue.Object obj).is_string = false
      ∧ (JsonValue.Object obj).is_number = false
      ∧ (JsonValue.Object obj).is_bool = false
      ∧ (JsonValue.Object obj).is_null = false
      ∧ (JsonValue.Object obj).as_object = some obj
      ∧ (JsonValue.Object obj).to_object = some obj
      ∧ (JsonValue.Object obj).as_array = none
      ∧ (JsonValue.Object obj).to_array = none
      ∧ (JsonValue.Object obj).as_string = none
      ∧ (JsonValue.Object obj).to_string = none
      ∧ (JsonValue.Object obj).as_number = none
      ∧ (JsonValue.Object obj).to_number = none
      ∧ (JsonValue.Object obj).as_bool = none
      ∧ (JsonValue.Object obj).to_bool = none)
    ∧ (∀ arr : List JsonValue,
      (JsonValue.Array arr).is_array = true
      ∧ (JsonValue.Array arr).is_object = false
      ∧ (JsonValue.Array arr).is_string = false
      ∧ (JsonValue.Array arr).is_number = false
      ∧ (JsonValue.Array arr).is_bool = false
      ∧ (JsonValue.Array arr).is_null = false
      ∧ (JsonValue.Array arr).as_array = some arr
      ∧ (JsonValue.Array arr).to_array = some arr
      ∧ (JsonValue.Array arr).as_object = none
      ∧ (JsonValue.Array arr).to_object = none
      ∧ (JsonValue.Array arr).as_string = none
      ∧ (JsonValue.Array arr).to_string = none
      ∧ (JsonValue.Array arr).as_number = none
      ∧ (JsonValue.Array arr).to_number = none
      ∧ (JsonValue.Array arr).as_bool = none
      ∧ (JsonValue.Array arr).to_bool = none)
    ∧ (∀ s : List Nat,
      (JsonValue.String s).is_string = true
      ∧ (JsonValue.String s).is_object = false
      ∧ (JsonValue.String s).is_array = false
      ∧ (JsonValue.String s).is_number = false
      ∧ (JsonValue.String s).is_bool = false
      ∧ (JsonValue.String s).is_null = false
      ∧ (JsonValue.String s).as_string = some s
      ∧ (JsonValue.String s).to_string = some s
      ∧ (JsonValue.String s).as_object = none
      ∧ (JsonValue.String s).to_object = none
      ∧ (JsonValue.String s).as_array = none
      ∧ (JsonValue.String s).to_array = none
      ∧ (JsonValue.String s).as_number = none
      ∧ (JsonValue.String s).to_number = none
      ∧ (JsonValue.String s).as_bool = none
      ∧ (JsonValue.String s).to_bool = none)
    ∧ (∀ n : NumberValue,
      (JsonValue.Number n).is_number = true
      ∧ (JsonValue.Number n).is_object = false
      ∧ (JsonValue.Number n).is_array = false
      ∧ (JsonValue.Number n).is_string = false
      ∧ (JsonValue.Number n).is_bool = false
      ∧ (JsonValue.Number n).is_null = false
      ∧ (JsonValue.Number n).as_number = some n
      ∧ (JsonValue.Number n).to_number = some n
      ∧ (JsonValue.Number n).as_object = none
      ∧ (JsonValue.Number n).to_object = none
      ∧ (JsonValue.Number n).as_array = none
      ∧ (JsonValue.Number n).to_array = none
      ∧ (JsonValue.Number n).as_string = none
      ∧ (JsonValue.Number n).to_string = none
      ∧ (JsonValue.Number n).as_bool = none
      ∧ (JsonValue.Number n).to_bool = none)
    ∧ (∀ b : Bool,
      (JsonValue.Boolean b).is_bool = true
      ∧ (JsonValue.Boolean b).is_object = false
      ∧ (JsonValue.Boolean b).is_array = false
      ∧ (JsonValue.Boolean b).is_string = false
      ∧ (JsonValue.Boolean b).is_number = false
      ∧ (JsonValue.Boolean b).is_null = false
      ∧ (JsonValue.Boolean b).as_bool = some b
      ∧ (JsonValue.Boolean b).to_bool = some b
      ∧ (JsonValue.Boolean b).as_object = none
      ∧ (JsonValue.Boolean b).to_object = none
      ∧ (JsonValue.Boolean b).as_array = none
      ∧ (JsonValue.Boolean b).to_array = none
      ∧ (JsonValue.Boolean b).as_string = none
      ∧ (JsonValue.Boolean b).to_string = none
      ∧ (JsonValue.Boolean b).as_number = none
      ∧ (JsonValue.Boolean b).to_number = none)
    ∧ (JsonValue.Null.is_null = true
      ∧ JsonValue.Null.is_object = false
      ∧ JsonValue.Null.is_array = false
      ∧ JsonValue.Null.is_string = false
      ∧ JsonValue.Null.is_number = false
      ∧ JsonValue.Null.is_bool = false
      ∧ JsonValue.Null.as_object = none
      ∧ JsonValue.Null.to_object = none
      ∧ JsonValue.Null.as_array = none
      ∧ JsonValue.Null.to_array = none
      ∧ JsonValue.Null.as_string = none
      ∧ JsonValue.Null.to_string = none
      ∧ JsonValue.Null.as_number = none
      ∧ JsonValue.Null.to_number = none
      ∧ JsonValue.Null.as_bool = none
      ∧ JsonValue.Null.to_bool = none) := by
  refine ⟨fun obj => ?_, fun arr => ?_, fun s => ?_, fun n => ?_, fun b => ?_, ?_⟩ <;>
    exact ⟨rfl, rfl, rfl, rfl, rfl, rfl, rfl, rfl, rfl, rfl, rfl, rfl, rfl, rfl, rfl, rfl⟩

/-- C6: the string serializer emits a quote, each scalar value either as
one of the seven escapes or as its raw UTF-8 bytes, and a closing quote;
identically for String payloads and Object keys, independent of the indent
mode. -/
theorem C6_string_escaping (cs : List Nat) (h : ∀ c ∈ cs, ValidChar c) :
    (∀ buffer, push_string buffer cs = some (buffer ++ quoteEscape cs))
    ∧ (∀ buffer indent level,
        JsonValue.serialize_to (.String cs) buffer indent level = push_string buffer cs)
    ∧ (∀ buffer indent level,
        JsonValue.serialize_to (.Object [(cs, .Null)]) buffer indent level
          = some (buffer ++ [123] ++ nlBytes indent (level + 1) ++ quoteEscape cs ++ [58]
              ++ (if indent > 0 then [32] else []) ++ [110, 117, 108, 108]
              ++ nlBytes indent level ++ [125])) := by
  refine ⟨fun buffer => push_string_eq buffer cs, fun buffer indent level => rfl, ?_⟩
  intro buffer indent level
  rw [serialize_to_eq_emit]
  simp [emit, emitObjRest, List.append_assoc]

/-- Witness for C6: a string containing a newline, a quote, a backslash,
an ASCII letter and U+00E9 serializes to the escaped, UTF-8-encoded quoted
literal. -/
theorem C6_witness :
    push_string [] [10, 34, 92, 97, 233]
      = some [34, 92, 110, 92, 34, 92, 92, 97, 195, 169, 34] := by
  have h := (C6_string_escaping [10, 34, 92, 97, 233] (by decide)).1 []
  rw [h]
  decide

/-- C7: with indent 0 (the compact mode of `serialize()`), `serialize_to`
is `serialize` up to the initial buffer at every level, and, when no string
or key contains the space character, the appended bytes contain no
whitespace byte at all: whitespace can only come from inside quoted
literals. -/
theorem C7_compact_no_whitespace (v : JsonValue) (h : noSpaceStrings v = true) :
    (∀ buffer level, JsonValue.serialize_to v buffer 0 level
      = (serialize v).map fun out => buffer ++ out)
    ∧ (∀ out, serialize v = some out → ∀ b ∈ out, ¬ whitespaceByte b) := by
  constructor
  · intro buffer level
    rw [serialize_to_eq_emit]
    unfold serialize
    rw [serialize_to_eq_emit]
    rw [emit_indent_zero_level v level 0]
    cases emit v 0 0 <;> simp
  · intro out hout
    unfold serialize at hout
    rw [serialize_to_eq_emit] at hout
    cases he : emit v 0 0 with
    | none => rw [he] at hout; simp at hout
    | some o =>
      rw [he] at hout
      simp at hout
      rw [← hout]
      exact emit_no_ws v 0 o h he

/-- Witness for C7: a concrete space-free object serialized compactly with
a nonempty initial buffer and a nonzero level. -/
theorem C7_witness :
    JsonValue.serialize_to (.Object [([107], .String [118])]) [99] 0 5
      = some [99, 123, 34, 107, 34, 58, 34, 118, 34, 125] := by
  have h := (C7_compact_no_whitespace (.Object [([107], .String [118])]) (by decide)).1 [99] 5
  rw [h]
  decide

/-- C9: `serialize_to` is append-only: on normal return the previous buffer
contents are unchanged and form a prefix of the result. -/
theorem C9_append_only (v : JsonValue) (buffer : List Nat) (indent level : Nat)
    (out : List Nat) (h : JsonValue.serialize_to v buffer indent level = some out) :
    buffer <+: out := by
  rw [serialize_to_eq_emit] at h
  cases he : emit v indent level with
  | none => rw [he] at h; simp at h
  | some o =>
    rw [he] at h
    simp at h
    exact ⟨o, h⟩

/-- Witness for C9: serializing `null` after an existing byte keeps that
byte as a prefix. -/
theorem C9_witness : [7] <+: [7, 110, 117, 108, 108] :=
  C9_append_only .Null [7] 0 0 [7, 110, 117, 108, 108] (by decide)

/-- C10: for sequences of Unicode scalar values every element's UTF-8
length is between 1 and 4, so the panic arm of `push_string` is
unreachable and string serialization never terminates fatally. -/
theorem C10_no_panic_in_push_string (chars : List Nat) (h : ∀ c ∈ chars, ValidChar c) :
    (∀ c ∈ chars, 1 ≤ lenUtf8 c ∧ lenUtf8 c ≤ 4)
    ∧ ∀ buffer, (push_string buffer chars).isSome = true := by
  constructor
  · intro c hc
    unfold lenUtf8
    split_ifs <;> omega
  · intro buffer
    rw [push_string_eq]
    rfl

/-- Witness for C10: an ASCII letter and an astral-plane scalar value
(U+1F600) are escaped without fatal termination. -/
theorem C10_witness : (push_string [] [97, 128512]).isSome = true :=
  (C10_no_panic_in_push_string [97, 128512] (by decide)).2 []

end LiteJson
